import Mathlib

/-!
Shallow embedding of the TabVault browser extension core
(`background.js`, here `src/unnamed/part_000`, and `src/options.js`).

Modelling conventions:
* Timestamps (`Date.now()`) are natural numbers (milliseconds).
* A JS string that may be `undefined` is modelled as `String`, with `""`
  standing for `undefined`; the JS truthiness operator `a || b` on strings
  is `jsOr`, and on numbers (where `0` is falsy) it is `natOr`.
* `chrome.storage.local` is the `Storage` structure; the tab-metadata map
  (a JS object keyed by `String(tab.id)`) is a function `Nat → Option TabRecord`
  (JS object keys are unique, and `String.fromNat` is injective, so `Nat`
  keys are faithful).
* Fallible external calls (`chrome.tabs.remove`, the queue load/save,
  `fetch`, `chrome.runtime.sendMessage`, `chrome.tabs.get`) are driven by
  explicit failure flags; a `try`/`catch` with an empty catch block is a
  branch that discards the outcome.
* Side effects other than storage writes (closing a tab, the network push,
  the in-process broadcast) are recorded as observation traces.
-/

namespace TabVault

/-- One entry of the tab-metadata map (`background.js` lines 11-19). -/
structure TabRecord where
  openedAt : Nat
  lastActiveAt : Nat
  firstUrl : String
  currentUrl : String
  title : String
deriving Repr, DecidableEq

/-- One entry of the closed-items queue (`background.js` line 32). -/
structure ClosedItem where
  openedAt : Nat
  closedAt : Nat
  url : String
  title : String
deriving Repr, DecidableEq

/-- The fields of a `chrome.tabs.Tab` that the core reads. `""` models an
absent (`undefined`) `url`/`title`. -/
structure Tab where
  id : Nat
  url : String
  title : String
  pinned : Bool
deriving Repr, DecidableEq

/-- JS `a || b` on strings: `""` (and `undefined`, also modelled `""`) is falsy. -/
def jsOr (a b : String) : String := if a = "" then b else a

/-- JS `a || b` on numbers: `0` is falsy. -/
def natOr (a b : Nat) : Nat := if a = 0 then b else a

/-- The in-memory tab-metadata map. -/
abbrev MetaMap := Nat → Option TabRecord

/-- Model of `chrome.storage.local`: the three keys the repository uses
(`tabMetadata`, `closedItems`, `inactivityThresholdHours`). -/
structure Storage where
  tabMetadata : MetaMap
  closedItems : List ClosedItem
  inactivityThresholdHours : Option Nat

def loadTabMetadata (s : Storage) : MetaMap := s.tabMetadata

def saveTabMetadata (s : Storage) (m : MetaMap) : Storage := { s with tabMetadata := m }

def loadClosedItems (s : Storage) : List ClosedItem := s.closedItems

def saveClosedItems (s : Storage) (items : List ClosedItem) : Storage :=
  { s with closedItems := items }

/-- Assignment `metadata[key] = record` (JS object update). -/
def setMeta (m : MetaMap) (k : Nat) (v : TabRecord) : MetaMap :=
  fun k' => if k' = k then some v else m k'

/-- Deletion `delete metadata[key]`. -/
def delMeta (m : MetaMap) (k : Nat) : MetaMap :=
  fun k' => if k' = k then none else m k'

/-- Character-list prefix test (used to model the scheme check). -/
def listStartsWith : List Char → List Char → Bool
  | _, [] => true
  | [], _ :: _ => false
  | c :: cs, p :: ps => (c == p) && listStartsWith cs ps

/-- Function `isSupportedHttpUrl` (`background.js` lines 43-51): `false` for a falsy
URL, else `true` exactly when the URL parses with protocol `http:` or
`https:`; the `new URL` protocol check is modelled as a scheme-prefix test. -/
def isSupportedHttpUrl (url : String) : Bool :=
  if url = "" then false
  else listStartsWith url.toList "http://".toList
    || listStartsWith url.toList "https://".toList

/-- Constant `STALE_THRESHOLD_MS` (`background.js` line 1): one day, hard-coded. -/
def STALE_THRESHOLD_MS : Nat := 24 * 60 * 60 * 1000

/-- The record literal `{openedAt: now, lastActiveAt: now, firstUrl: tab.url || "",
currentUrl: tab.url || "", title: tab.title || ""}` repeated at
`background.js` lines 76-82, 96-102, 205-211, 258-264. -/
def freshRecord (now : Nat) (tab : Tab) : TabRecord :=
  { openedAt := now
    lastActiveAt := now
    firstUrl := jsOr tab.url ""
    currentUrl := jsOr tab.url ""
    title := jsOr tab.title "" }

/-- Which of the pipeline's external calls fail in a given run. -/
structure Failures where
  closeFails : Bool
  appendFails : Bool
  pushFails : Bool
  broadcastFails : Bool
deriving Repr, DecidableEq

def noFail : Failures := ⟨false, false, false, false⟩

/-- Observation trace of one `closeAndLogTab` run: which tab ids
`chrome.tabs.remove` was called on, which (tab id, item) pairs were appended
to the queue, which items were POSTed to the helper, which items were
broadcast via `chrome.runtime.sendMessage`, and whether the call threw. -/
structure PipeEffects where
  closeAttempts : List Nat
  appendEvents : List (Nat × ClosedItem)
  pushAttempts : List ClosedItem
  broadcasts : List ClosedItem
  threw : Bool
deriving Repr, DecidableEq

def noEffects : PipeEffects := ⟨[], [], [], [], false⟩

/-- The ClosedItem built at `background.js` lines 151-156. -/
def mkClosedItem (now : Nat) (m : TabRecord) : ClosedItem :=
  { openedAt := m.openedAt
    closedAt := now
    url := jsOr m.currentUrl m.firstUrl
    title := jsOr m.title (jsOr m.currentUrl m.firstUrl) }

/-- Function `closeAndLogTab` (`background.js` lines 147-187).
Steps: guard on a missing record; build the ClosedItem; close the tab
(`try`/`catch`, failure swallowed); load, push, save the closed-items queue
(NOT wrapped in `try`/`catch`: a failure propagates to the caller); POST to
the local helper (`try`/`catch`, failure swallowed); broadcast
(`.catch(() => {})`, failure swallowed). -/
def closeAndLogTab (f : Failures) (now : Nat) (tab : Tab)
    (metaEntry : Option TabRecord) (s : Storage) : Storage × PipeEffects :=
  match metaEntry with
  | none => (s, noEffects)
  | some m =>
    let closedItem := mkClosedItem now m
    -- try { await chrome.tabs.remove(tab.id) } catch (e) { /* already gone */ }
    let closeAttempts := [tab.id]
    let _closeOutcome : Except Unit Unit := if f.closeFails then .error () else .ok ()
    -- const items = await loadClosedItems(); items.push(closedItem); await saveClosedItems(items);
    if f.appendFails then
      -- the storage read/write threw; nothing caught it
      (s, { closeAttempts := closeAttempts, appendEvents := [], pushAttempts := [],
            broadcasts := [], threw := true })
    else
      let s2 := saveClosedItems s (loadClosedItems s ++ [closedItem])
      -- try { await fetch("http://127.0.0.1:8787/append", ...) } catch (e) { }
      let pushAttempts := [closedItem]
      let _pushOutcome : Except Unit Unit := if f.pushFails then .error () else .ok ()
      -- chrome.runtime.sendMessage(...).catch(() => { })
      let broadcasts := [closedItem]
      let _broadcastOutcome : Except Unit Unit := if f.broadcastFails then .error () else .ok ()
      (s2, { closeAttempts := closeAttempts, appendEvents := [(tab.id, closedItem)],
             pushAttempts := pushAttempts, broadcasts := broadcasts, threw := false })

/-- Result of one `checkForStaleTabs` run: the persisted storage afterwards
plus the accumulated pipeline observations. -/
structure ScanOut where
  storage : Storage
  closeAttempts : List Nat
  appendEvents : List (Nat × ClosedItem)
  threw : Bool

/-- The `for (const tab of tabs)` sweep of `checkForStaleTabs`
(`background.js` lines 196-224), followed by the single
`saveTabMetadata(metadata)` at line 224. `meta` is the in-memory map; if a
pipeline call throws, the loop aborts and the final save never runs. -/
def scanLoop (f : Failures) (now : Nat) : List Tab → MetaMap → Storage → ScanOut
  | [], meta, s => ⟨saveTabMetadata s meta, [], [], false⟩
  | t :: rest, meta, s =>
    if t.pinned then scanLoop f now rest meta s
    else if ¬ isSupportedHttpUrl t.url then scanLoop f now rest meta s
    else
      -- let entry = metadata[key]; if (!entry) { entry = {...now/now...}; metadata[key] = entry; }
      let entry := (meta t.id).getD (freshRecord now t)
      let meta1 := match meta t.id with
        | none => setMeta meta t.id (freshRecord now t)
        | some _ => meta
      -- const lastActiveAt = entry.lastActiveAt || entry.openedAt || now;
      let lastActive := natOr entry.lastActiveAt (natOr entry.openedAt now)
      -- if (now - lastActiveAt >= STALE_THRESHOLD_MS)  [hard-coded constant]
      if STALE_THRESHOLD_MS ≤ now - lastActive then
        let r := closeAndLogTab f now t (some entry) s
        if r.2.threw then ⟨r.1, r.2.closeAttempts, r.2.appendEvents, true⟩
        else
          let out := scanLoop f now rest (delMeta meta1 t.id) r.1
          ⟨out.storage, r.2.closeAttempts ++ out.closeAttempts,
           r.2.appendEvents ++ out.appendEvents, out.threw⟩
      else scanLoop f now rest meta1 s

/-- Function `checkForStaleTabs` (`background.js` lines 189-225): snapshot the open
tabs and the metadata map, sweep, persist the map once at the end. Note that
it never reads `inactivityThresholdHours`. -/
def checkForStaleTabs (f : Failures) (now : Nat) (tabs : List Tab) (s : Storage) : ScanOut :=
  scanLoop f now tabs (loadTabMetadata s) s

/-- Function `handleTabCreated` (`background.js` lines 92-104). -/
def handleTabCreated (now : Nat) (tab : Tab) (s : Storage) : Storage :=
  if ¬ isSupportedHttpUrl tab.url then s
  else saveTabMetadata s (setMeta (loadTabMetadata s) tab.id (freshRecord now tab))

/-- The `changeInfo` argument of `chrome.tabs.onUpdated`; `""` models an
absent field. -/
structure ChangeInfo where
  url : String
  title : String
  status : String
deriving Repr, DecidableEq

/-- Function `handleTabUpdated` (`background.js` lines 106-136). -/
def handleTabUpdated (now : Nat) (tabId : Nat) (changeInfo : ChangeInfo) (tab : Tab)
    (s : Storage) : Storage :=
  -- if (!changeInfo.url && !changeInfo.title && changeInfo.status !== "complete") return;
  if changeInfo.url = "" ∧ changeInfo.title = "" ∧ changeInfo.status ≠ "complete" then s
  else
    let metadata := loadTabMetadata s
    match metadata tabId with
    | none =>
      if ¬ isSupportedHttpUrl tab.url then s
      else
        saveTabMetadata s (setMeta metadata tabId
          { openedAt := now
            lastActiveAt := now
            firstUrl := jsOr tab.url ""
            currentUrl := jsOr tab.url ""
            title := jsOr tab.title (jsOr changeInfo.title "") })
    | some entry =>
      -- if (isSupportedHttpUrl(tab.url)) entry.currentUrl = tab.url || entry.currentUrl;
      let e1 := if isSupportedHttpUrl tab.url
        then { entry with currentUrl := jsOr tab.url entry.currentUrl } else entry
      -- if (tab.title || changeInfo.title) entry.title = tab.title || changeInfo.title || entry.title;
      let e2 := if tab.title ≠ "" ∨ changeInfo.title ≠ ""
        then { e1 with title := jsOr tab.title (jsOr changeInfo.title e1.title) } else e1
      saveTabMetadata s (setMeta metadata tabId e2)

/-- Function `handleTabRemoved` (`background.js` lines 138-145). -/
def handleTabRemoved (tabId : Nat) (s : Storage) : Storage :=
  match (loadTabMetadata s) tabId with
  | some _ => saveTabMetadata s (delMeta (loadTabMetadata s) tabId)
  | none => s

/-- The `chrome.tabs.onActivated` listener (`background.js` lines 249-273).
`liveTab = none` models `chrome.tabs.get` throwing (the `catch { return }`). -/
def handleTabActivated (now : Nat) (tabId : Nat) (liveTab : Option Tab)
    (s : Storage) : Storage :=
  let metadata := loadTabMetadata s
  match metadata tabId with
  | none =>
    match liveTab with
    | none => s
    | some tab =>
      if ¬ isSupportedHttpUrl tab.url then s
      else saveTabMetadata s (setMeta metadata tabId (freshRecord now tab))
  | some entry =>
    saveTabMetadata s (setMeta metadata tabId { entry with lastActiveAt := now })

/-- Function `ensureAlarm` (`background.js` lines 53-61): returns (alarm exists
afterwards, whether `chrome.alarms.create` was called). -/
def ensureAlarm (alarmExists : Bool) : Bool × Bool :=
  if alarmExists then (alarmExists, false) else (true, true)

/-- The reconciliation loop of `initialiseExistingTabs`
(`background.js` lines 72-85), threading the `changed` flag. -/
def initLoop (now : Nat) : List Tab → MetaMap → Bool → MetaMap × Bool
  | [], metadata, changed => (metadata, changed)
  | tab :: rest, metadata, changed =>
    if ¬ isSupportedHttpUrl tab.url then initLoop now rest metadata changed
    else match metadata tab.id with
      | some _ => initLoop now rest metadata changed
      | none => initLoop now rest (setMeta metadata tab.id (freshRecord now tab)) true

/-- Function `initialiseExistingTabs` (`background.js` lines 63-90): returns the
storage afterwards and whether `saveTabMetadata` was called. -/
def initialiseExistingTabs (now : Nat) (tabs : List Tab) (s : Storage) : Storage × Bool :=
  let r := initLoop now tabs (loadTabMetadata s) false
  (if r.2 then saveTabMetadata s r.1 else s, r.2)

/-- The Initializer (`background.js` lines 228-236): `ensureAlarm` then
`initialiseExistingTabs`. Returns ((alarm exists, alarm created),
(storage, metadata saved)). -/
def runInitializer (now : Nat) (tabs : List Tab) (alarmExists : Bool) (s : Storage) :
    (Bool × Bool) × (Storage × Bool) :=
  (ensureAlarm alarmExists, initialiseExistingTabs now tabs s)

/-- Function `saveInactivityThreshold` (`options.js` lines 144-160): `hours` is the
result of `Number(select.value)` with `NaN` modelled as `0`; the guard
`!hours || hours <= 0` rejects it. Returns (storage, saved?). -/
def saveInactivityThreshold (hours : Nat) (s : Storage) : Storage × Bool :=
  if hours = 0 then (s, false)
  else ({ s with inactivityThresholdHours := some hours }, true)

end TabVault

namespace TabVault

/-! ### Pipeline lemmas and pipeline-level claims -/

/-- Success path of `closeAndLogTab` as one equation. -/
theorem closeAndLogTab_success (f : Failures) (now : Nat) (tab : Tab)
    (m : TabRecord) (s : Storage) (h : f.appendFails = false) :
    closeAndLogTab f now tab (some m) s =
      (saveClosedItems s (loadClosedItems s ++ [mkClosedItem now m]),
       ⟨[tab.id], [(tab.id, mkClosedItem now m)], [mkClosedItem now m],
        [mkClosedItem now m], false⟩) := by
  simp [closeAndLogTab, h]

/-- Throw path of `closeAndLogTab`: the unguarded queue append fails. -/
theorem closeAndLogTab_throw (f : Failures) (now : Nat) (tab : Tab)
    (m : TabRecord) (s : Storage) (h : f.appendFails = true) :
    closeAndLogTab f now tab (some m) s = (s, ⟨[tab.id], [], [], [], true⟩) := by
  simp [closeAndLogTab, h]

/-- Fixture: a qualifying record. -/
def recA : TabRecord := ⟨0, 5, "http://a", "http://a", "T"⟩

/-- Fixture: a qualifying, unpinned tab. -/
def tabA : Tab := ⟨1, "http://a", "T", false⟩

/-- Fixture: empty persisted storage. -/
def emptyStorage : Storage := ⟨fun _ => none, [], none⟩

/-- C10: invoking the Close-and-Log Pipeline with an absent TabRecord is a
complete no-op: the storage is unchanged and there is no close attempt, no
queue append, no network push, no broadcast, and no error. -/
theorem C10_absent_record_noop (f : Failures) (now : Nat) (tab : Tab) (s : Storage) :
    closeAndLogTab f now tab none s = (s, noEffects) := rfl

/-- C3 counterexample: at a concrete input where only the queue append
fails, the pipeline performs no push and no broadcast and the error
propagates to the caller (`threw = true`) — refuting the claim that a
failure in any step after step 1 never prevents the remaining steps and
that no error propagates. -/
theorem C3_counterexample :
    (closeAndLogTab ⟨false, true, false, false⟩ 10 tabA (some recA) emptyStorage).2
      = { closeAttempts := [1], appendEvents := [], pushAttempts := [],
          broadcasts := [], threw := true }
    ∧ (closeAndLogTab ⟨false, true, false, false⟩ 10 tabA (some recA) emptyStorage).1.closedItems
      = [] := by
  constructor <;> rfl

/-- C3 (amended): once the ClosedItem is built, a failure of the tab-close,
the network push, or the in-process broadcast changes nothing — the
remaining steps still execute and no error reaches the caller; only a
failure of the queue-append step (which the source does not guard) aborts
the push and the broadcast and propagates to the caller. -/
theorem C3_nonappend_failures_isolated (f g : Failures) (now : Nat) (tab : Tab)
    (m : TabRecord) (s : Storage) (hfg : f.appendFails = g.appendFails) :
    closeAndLogTab f now tab (some m) s = closeAndLogTab g now tab (some m) s
    ∧ (f.appendFails = false →
        closeAndLogTab f now tab (some m) s =
          (saveClosedItems s (loadClosedItems s ++ [mkClosedItem now m]),
           ⟨[tab.id], [(tab.id, mkClosedItem now m)], [mkClosedItem now m],
            [mkClosedItem now m], false⟩))
    ∧ (f.appendFails = true →
        closeAndLogTab f now tab (some m) s = (s, ⟨[tab.id], [], [], [], true⟩)) := by
  refine ⟨?_, ?_, ?_⟩
  · simp [closeAndLogTab, hfg]
  · intro h; simp [closeAndLogTab, h]
  · intro h; simp [closeAndLogTab, h]

/-- Witness for `C3_nonappend_failures_isolated` at a concrete input: every
non-append step failing at once. -/
theorem C3_witness :
    closeAndLogTab ⟨true, false, true, true⟩ 10 tabA (some recA) emptyStorage
      = closeAndLogTab noFail 10 tabA (some recA) emptyStorage
    ∧ ((⟨true, false, true, true⟩ : Failures).appendFails = false →
        closeAndLogTab ⟨true, false, true, true⟩ 10 tabA (some recA) emptyStorage =
          (saveClosedItems emptyStorage
            (loadClosedItems emptyStorage ++ [mkClosedItem 10 recA]),
           ⟨[tabA.id], [(tabA.id, mkClosedItem 10 recA)], [mkClosedItem 10 recA],
            [mkClosedItem 10 recA], false⟩))
    ∧ ((⟨true, false, true, true⟩ : Failures).appendFails = true →
        closeAndLogTab ⟨true, false, true, true⟩ 10 tabA (some recA) emptyStorage
          = (emptyStorage, ⟨[tabA.id], [], [], [], true⟩)) :=
  C3_nonappend_failures_isolated ⟨true, false, true, true⟩ noFail 10 tabA recA
    emptyStorage rfl

/-- C7: if the network push fails, the pipeline's outcome is unchanged
except for the push itself — the run is equal, state and trace, to a run
with a healthy push; the ClosedItem is still appended to the queue; the
broadcast is still attempted; no error reaches the caller. -/
theorem C7_push_failure_isolated (f : Failures) (now : Nat) (tab : Tab)
    (m : TabRecord) (s : Storage) (h : f.appendFails = false) :
    closeAndLogTab { f with pushFails := true } now tab (some m) s
      = closeAndLogTab { f with pushFails := false } now tab (some m) s
    ∧ (closeAndLogTab { f with pushFails := true } now tab (some m) s).1.closedItems
      = s.closedItems ++ [mkClosedItem now m]
    ∧ (closeAndLogTab { f with pushFails := true } now tab (some m) s).2.broadcasts
      = [mkClosedItem now m]
    ∧ (closeAndLogTab { f with pushFails := true } now tab (some m) s).2.threw = false := by
  refine ⟨rfl, ?_, ?_, ?_⟩ <;>
    simp [closeAndLogTab, h, saveClosedItems, loadClosedItems]

/-- Witness for `C7_push_failure_isolated` at a concrete input. -/
theorem C7_witness :
    closeAndLogTab { noFail with pushFails := true } 10 tabA (some recA) emptyStorage
      = closeAndLogTab { noFail with pushFails := false } 10 tabA (some recA) emptyStorage
    ∧ (closeAndLogTab { noFail with pushFails := true } 10 tabA
        (some recA) emptyStorage).1.closedItems
      = emptyStorage.closedItems ++ [mkClosedItem 10 recA]
    ∧ (closeAndLogTab { noFail with pushFails := true } 10 tabA
        (some recA) emptyStorage).2.broadcasts = [mkClosedItem 10 recA]
    ∧ (closeAndLogTab { noFail with pushFails := true } 10 tabA
        (some recA) emptyStorage).2.threw = false :=
  C7_push_failure_isolated noFail 10 tabA recA emptyStorage rfl

end TabVault

namespace TabVault

/-! ### Step equations for the stale-scan sweep -/

theorem scanLoop_nil (f : Failures) (now : Nat) (meta : MetaMap) (s : Storage) :
    scanLoop f now [] meta s = ⟨saveTabMetadata s meta, [], [], false⟩ := rfl

theorem scanLoop_pinned (f : Failures) (now : Nat) (t : Tab) (rest : List Tab)
    (meta : MetaMap) (s : Storage) (h : t.pinned = true) :
    scanLoop f now (t :: rest) meta s = scanLoop f now rest meta s := by
  simp [scanLoop, h]

theorem scanLoop_nonqual (f : Failures) (now : Nat) (t : Tab) (rest : List Tab)
    (meta : MetaMap) (s : Storage) (h : isSupportedHttpUrl t.url = false) :
    scanLoop f now (t :: rest) meta s = scanLoop f now rest meta s := by
  simp [scanLoop, h]

/-- A record synthesized during the sweep has `lastActiveAt = now`, so its
inactive duration is `0` and it is below the (positive) threshold. -/
theorem fresh_not_stale (now : Nat) :
    ¬ STALE_THRESHOLD_MS ≤ now - natOr now (natOr now now) := by
  unfold natOr STALE_THRESHOLD_MS
  split <;> omega

theorem scanLoop_unknown (f : Failures) (now : Nat) (t : Tab) (rest : List Tab)
    (meta : MetaMap) (s : Storage) (h1 : t.pinned = false)
    (h2 : isSupportedHttpUrl t.url = true) (hmt : meta t.id = none) :
    scanLoop f now (t :: rest) meta s
      = scanLoop f now rest (setMeta meta t.id (freshRecord now t)) s := by
  simp [scanLoop, h1, h2, hmt, freshRecord, fresh_not_stale now]

theorem scanLoop_known_live (f : Failures) (now : Nat) (t : Tab) (rest : List Tab)
    (meta : MetaMap) (s : Storage) (e : TabRecord) (h1 : t.pinned = false)
    (h2 : isSupportedHttpUrl t.url = true) (hmt : meta t.id = some e)
    (hst : ¬ STALE_THRESHOLD_MS ≤ now - natOr e.lastActiveAt (natOr e.openedAt now)) :
    scanLoop f now (t :: rest) meta s = scanLoop f now rest meta s := by
  simp [scanLoop, h1, h2, hmt, hst]

theorem scanLoop_evict (f : Failures) (now : Nat) (t : Tab) (rest : List Tab)
    (meta : MetaMap) (s : Storage) (e : TabRecord) (hap : f.appendFails = false)
    (h1 : t.pinned = false) (h2 : isSupportedHttpUrl t.url = true)
    (hmt : meta t.id = some e)
    (hst : STALE_THRESHOLD_MS ≤ now - natOr e.lastActiveAt (natOr e.openedAt now)) :
    scanLoop f now (t :: rest) meta s
      = ⟨(scanLoop f now rest (delMeta meta t.id)
            (saveClosedItems s (loadClosedItems s ++ [mkClosedItem now e]))).storage,
         t.id :: (scanLoop f now rest (delMeta meta t.id)
            (saveClosedItems s (loadClosedItems s ++ [mkClosedItem now e]))).closeAttempts,
         (t.id, mkClosedItem now e) :: (scanLoop f now rest (delMeta meta t.id)
            (saveClosedItems s (loadClosedItems s ++ [mkClosedItem now e]))).appendEvents,
         (scanLoop f now rest (delMeta meta t.id)
            (saveClosedItems s (loadClosedItems s ++ [mkClosedItem now e]))).threw⟩ := by
  simp [scanLoop, h1, h2, hmt, hst, closeAndLogTab_success f now t e s hap]

theorem scanLoop_evict_throw (f : Failures) (now : Nat) (t : Tab) (rest : List Tab)
    (meta : MetaMap) (s : Storage) (e : TabRecord) (hap : f.appendFails = true)
    (h1 : t.pinned = false) (h2 : isSupportedHttpUrl t.url = true)
    (hmt : meta t.id = some e)
    (hst : STALE_THRESHOLD_MS ≤ now - natOr e.lastActiveAt (natOr e.openedAt now)) :
    scanLoop f now (t :: rest) meta s = ⟨s, [t.id], [], true⟩ := by
  simp [scanLoop, h1, h2, hmt, hst, closeAndLogTab_throw f now t e s hap]

end TabVault

namespace TabVault

/-! ### Map lookup lemmas -/

theorem setMeta_self (m : MetaMap) (k : Nat) (v : TabRecord) :
    setMeta m k v k = some v := by simp [setMeta]

theorem setMeta_ne (m : MetaMap) (k k' : Nat) (v : TabRecord) (h : k' ≠ k) :
    setMeta m k v k' = m k' := by simp [setMeta, h]

theorem delMeta_self (m : MetaMap) (k : Nat) : delMeta m k k = none := by
  simp [delMeta]

theorem delMeta_ne (m : MetaMap) (k k' : Nat) (h : k' ≠ k) :
    delMeta m k k' = m k' := by simp [delMeta, h]

/-! ### Structural lemmas about the sweep -/

/-- The queue after a sweep is the input queue plus exactly the items of the
recorded append events, in order. -/
theorem scanLoop_closedItems (f : Failures) (now : Nat) (tabs : List Tab)
    (meta : MetaMap) (s : Storage) :
    (scanLoop f now tabs meta s).storage.closedItems
      = s.closedItems ++ ((scanLoop f now tabs meta s).appendEvents).map Prod.snd := by
  induction tabs generalizing meta s with
  | nil => simp [scanLoop_nil, saveTabMetadata]
  | cons t rest ih =>
    cases hp : t.pinned with
    | true => rw [scanLoop_pinned f now t rest meta s hp]; exact ih meta s
    | false =>
      cases hq : isSupportedHttpUrl t.url with
      | false => rw [scanLoop_nonqual f now t rest meta s hq]; exact ih meta s
      | true =>
        cases hmt : meta t.id with
        | none => rw [scanLoop_unknown f now t rest meta s hp hq hmt]; exact ih _ s
        | some e =>
          by_cases hst : STALE_THRESHOLD_MS ≤ now - natOr e.lastActiveAt (natOr e.openedAt now)
          · cases hap : f.appendFails with
            | true => rw [scanLoop_evict_throw f now t rest meta s e hap hp hq hmt hst]; simp
            | false =>
              rw [scanLoop_evict f now t rest meta s e hap hp hq hmt hst]
              simp only [List.map_cons]
              rw [ih (delMeta meta t.id)
                   (saveClosedItems s (loadClosedItems s ++ [mkClosedItem now e]))]
              simp [saveClosedItems, loadClosedItems, List.append_assoc]
          · rw [scanLoop_known_live f now t rest meta s e hp hq hmt hst]; exact ih meta s

/-- A sweep with no failing queue appends never throws. -/
theorem scanLoop_noFail_threw (now : Nat) (tabs : List Tab)
    (meta : MetaMap) (s : Storage) :
    (scanLoop noFail now tabs meta s).threw = false := by
  induction tabs generalizing meta s with
  | nil => rfl
  | cons t rest ih =>
    cases hp : t.pinned with
    | true => rw [scanLoop_pinned noFail now t rest meta s hp]; exact ih meta s
    | false =>
      cases hq : isSupportedHttpUrl t.url with
      | false => rw [scanLoop_nonqual noFail now t rest meta s hq]; exact ih meta s
      | true =>
        cases hmt : meta t.id with
        | none => rw [scanLoop_unknown noFail now t rest meta s hp hq hmt]; exact ih _ s
        | some e =>
          by_cases hst : STALE_THRESHOLD_MS ≤ now - natOr e.lastActiveAt (natOr e.openedAt now)
          · rw [scanLoop_evict noFail now t rest meta s e rfl hp hq hmt hst]
            exact ih _ _
          · rw [scanLoop_known_live noFail now t rest meta s e hp hq hmt hst]
            exact ih meta s

/-- Every `chrome.tabs.remove` attempt of a sweep targets an unpinned,
qualifying tab of the snapshot. -/
theorem scanLoop_attempts_mem (f : Failures) (now : Nat) (tabs : List Tab)
    (meta : MetaMap) (s : Storage) :
    ∀ x ∈ (scanLoop f now tabs meta s).closeAttempts,
      ∃ t ∈ tabs, t.pinned = false ∧ isSupportedHttpUrl t.url = true ∧ x = t.id := by
  induction tabs generalizing meta s with
  | nil => intro x hx; simp [scanLoop_nil] at hx
  | cons t rest ih =>
    have weaken : ∀ x,
        (∃ u ∈ rest, u.pinned = false ∧ isSupportedHttpUrl u.url = true ∧ x = u.id) →
        ∃ u ∈ t :: rest, u.pinned = false ∧ isSupportedHttpUrl u.url = true ∧ x = u.id := by
      rintro x ⟨u, hu, h⟩; exact ⟨u, List.mem_cons_of_mem t hu, h⟩
    cases hp : t.pinned with
    | true =>
      rw [scanLoop_pinned f now t rest meta s hp]
      intro x hx; exact weaken x (ih meta s x hx)
    | false =>
      cases hq : isSupportedHttpUrl t.url with
      | false =>
        rw [scanLoop_nonqual f now t rest meta s hq]
        intro x hx; exact weaken x (ih meta s x hx)
      | true =>
        cases hmt : meta t.id with
        | none =>
          rw [scanLoop_unknown f now t rest meta s hp hq hmt]
          intro x hx; exact weaken x (ih _ s x hx)
        | some e =>
          by_cases hst : STALE_THRESHOLD_MS ≤ now - natOr e.lastActiveAt (natOr e.openedAt now)
          · cases hap : f.appendFails with
            | true =>
              rw [scanLoop_evict_throw f now t rest meta s e hap hp hq hmt hst]
              intro x hx
              simp only [List.mem_singleton] at hx
              exact ⟨t, List.mem_cons_self t rest, hp, hq, hx⟩
            | false =>
              rw [scanLoop_evict f now t rest meta s e hap hp hq hmt hst]
              intro x hx
              rcases List.mem_cons.mp hx with rfl | hx'
              · exact ⟨t, List.mem_cons_self t rest, hp, hq, rfl⟩
              · exact weaken x (ih _ _ x hx')
          · rw [scanLoop_known_live f now t rest meta s e hp hq hmt hst]
            intro x hx; exact weaken x (ih meta s x hx)

/-- Every queue-append event of a sweep is keyed by an unpinned, qualifying
tab of the snapshot. -/
theorem scanLoop_events_mem (f : Failures) (now : Nat) (tabs : List Tab)
    (meta : MetaMap) (s : Storage) :
    ∀ ev ∈ (scanLoop f now tabs meta s).appendEvents,
      ∃ t ∈ tabs, t.pinned = false ∧ isSupportedHttpUrl t.url = true ∧ ev.1 = t.id := by
  induction tabs generalizing meta s with
  | nil => intro ev hev; simp [scanLoop_nil] at hev
  | cons t rest ih =>
    have weaken : ∀ ev : Nat × ClosedItem,
        (∃ u ∈ rest, u.pinned = false ∧ isSupportedHttpUrl u.url = true ∧ ev.1 = u.id) →
        ∃ u ∈ t :: rest, u.pinned = false ∧ isSupportedHttpUrl u.url = true ∧ ev.1 = u.id := by
      rintro ev ⟨u, hu, h⟩; exact ⟨u, List.mem_cons_of_mem t hu, h⟩
    cases hp : t.pinned with
    | true =>
      rw [scanLoop_pinned f now t rest meta s hp]
      intro ev hev; exact weaken ev (ih meta s ev hev)
    | false =>
      cases hq : isSupportedHttpUrl t.url with
      | false =>
        rw [scanLoop_nonqual f now t rest meta s hq]
        intro ev hev; exact weaken ev (ih meta s ev hev)
      | true =>
        cases hmt : meta t.id with
        | none =>
          rw [scanLoop_unknown f now t rest meta s hp hq hmt]
          intro ev hev; exact weaken ev (ih _ s ev hev)
        | some e =>
          by_cases hst : STALE_THRESHOLD_MS ≤ now - natOr e.lastActiveAt (natOr e.openedAt now)
          · cases hap : f.appendFails with
            | true =>
              rw [scanLoop_evict_throw f now t rest meta s e hap hp hq hmt hst]
              intro ev hev; simp at hev
            | false =>
              rw [scanLoop_evict f now t rest meta s e hap hp hq hmt hst]
              intro ev hev
              rcases List.mem_cons.mp hev with rfl | hev'
              · exact ⟨t, List.mem_cons_self t rest, hp, hq, rfl⟩
              · exact weaken ev (ih _ _ ev hev')
          · rw [scanLoop_known_live f now t rest meta s e hp hq hmt hst]
            intro ev hev; exact weaken ev (ih meta s ev hev)

end TabVault

namespace TabVault

/-- A failure-free sweep leaves the persisted record of any tab id absent
from the snapshot exactly as the in-memory map had it. -/
theorem scanLoop_meta_notin (now : Nat) (tabs : List Tab) (meta : MetaMap)
    (s : Storage) (id : Nat) (hid : id ∉ tabs.map Tab.id) :
    (scanLoop noFail now tabs meta s).storage.tabMetadata id = meta id := by
  induction tabs generalizing meta s with
  | nil => rfl
  | cons t rest ih =>
    have hne : id ≠ t.id := by
      intro h; exact hid (by simp [h])
    have hid' : id ∉ rest.map Tab.id := by
      intro h; exact hid (List.mem_cons_of_mem _ h)
    cases hp : t.pinned with
    | true => rw [scanLoop_pinned noFail now t rest meta s hp]; exact ih meta s hid'
    | false =>
      cases hq : isSupportedHttpUrl t.url with
      | false => rw [scanLoop_nonqual noFail now t rest meta s hq]; exact ih meta s hid'
      | true =>
        cases hmt : meta t.id with
        | none =>
          rw [scanLoop_unknown noFail now t rest meta s hp hq hmt]
          rw [ih _ s hid']
          exact setMeta_ne meta t.id id _ hne
        | some e =>
          by_cases hst : STALE_THRESHOLD_MS ≤ now - natOr e.lastActiveAt (natOr e.openedAt now)
          · rw [scanLoop_evict noFail now t rest meta s e rfl hp hq hmt hst]
            show (scanLoop noFail now rest _ _).storage.tabMetadata id = meta id
            rw [ih _ _ hid']
            exact delMeta_ne meta t.id id hne
          · rw [scanLoop_known_live noFail now t rest meta s e hp hq hmt hst]
            exact ih meta s hid'

/-- For any failure pattern: a tab id that only ever appears on pinned or
non-qualifying tabs of the snapshot keeps its persisted record unchanged
across a sweep (`meta id = s.tabMetadata id` links the in-memory map to the
persisted one at the start of the sweep). -/
theorem scanLoop_meta_safe (f : Failures) (now : Nat) (tabs : List Tab)
    (meta : MetaMap) (s : Storage) (id : Nat)
    (hsafe : ∀ t ∈ tabs, t.id = id → t.pinned = true ∨ isSupportedHttpUrl t.url = false)
    (hlink : meta id = s.tabMetadata id) :
    (scanLoop f now tabs meta s).storage.tabMetadata id = s.tabMetadata id := by
  induction tabs generalizing meta s with
  | nil => exact hlink
  | cons t rest ih =>
    have hsafe' : ∀ u ∈ rest, u.id = id → u.pinned = true ∨ isSupportedHttpUrl u.url = false :=
      fun u hu => hsafe u (List.mem_cons_of_mem t hu)
    cases hp : t.pinned with
    | true => rw [scanLoop_pinned f now t rest meta s hp]; exact ih meta s hsafe' hlink
    | false =>
      cases hq : isSupportedHttpUrl t.url with
      | false => rw [scanLoop_nonqual f now t rest meta s hq]; exact ih meta s hsafe' hlink
      | true =>
        have hne : t.id ≠ id := by
          intro h
          rcases hsafe t (List.mem_cons_self t rest) h with hc | hc
          · rw [hp] at hc; cases hc
          · rw [hq] at hc; cases hc
        cases hmt : meta t.id with
        | none =>
          rw [scanLoop_unknown f now t rest meta s hp hq hmt]
          exact ih _ s hsafe' (by rw [setMeta_ne meta t.id id _ (Ne.symm hne)]; exact hlink)
        | some e =>
          by_cases hst : STALE_THRESHOLD_MS ≤ now - natOr e.lastActiveAt (natOr e.openedAt now)
          · cases hap : f.appendFails with
            | true =>
              rw [scanLoop_evict_throw f now t rest meta s e hap hp hq hmt hst]
            | false =>
              rw [scanLoop_evict f now t rest meta s e hap hp hq hmt hst]
              show (scanLoop f now rest _ _).storage.tabMetadata id = s.tabMetadata id
              rw [ih (delMeta meta t.id)
                    (saveClosedItems s (loadClosedItems s ++ [mkClosedItem now e])) hsafe'
                    (by rw [delMeta_ne meta t.id id (Ne.symm hne)]; exact hlink)]
              rfl
          · rw [scanLoop_known_live f now t rest meta s e hp hq hmt hst]
            exact ih meta s hsafe' hlink

/-- The TabRecord invariant `openedAt ≤ lastActiveAt` over a whole map. -/
def InvMeta (m : MetaMap) : Prop :=
  ∀ id r, m id = some r → r.openedAt ≤ r.lastActiveAt

theorem InvMeta.set {m : MetaMap} (hm : InvMeta m) {v : TabRecord} (k : Nat)
    (hv : v.openedAt ≤ v.lastActiveAt) : InvMeta (setMeta m k v) := by
  intro id r h
  unfold setMeta at h
  split at h
  · cases h; exact hv
  · exact hm id r h

theorem InvMeta.del {m : MetaMap} (hm : InvMeta m) (k : Nat) : InvMeta (delMeta m k) := by
  intro id r h
  unfold delMeta at h
  split at h
  · cases h
  · exact hm id r h

/-- A sweep preserves the `openedAt ≤ lastActiveAt` invariant, for any
failure pattern (synthesized records are `now`/`now`; eviction only
deletes). -/
theorem scanLoop_invMeta (f : Failures) (now : Nat) (tabs : List Tab)
    (meta : MetaMap) (s : Storage) (hm : InvMeta meta) (hs : InvMeta s.tabMetadata) :
    InvMeta (scanLoop f now tabs meta s).storage.tabMetadata := by
  induction tabs generalizing meta s with
  | nil => exact hm
  | cons t rest ih =>
    cases hp : t.pinned with
    | true => rw [scanLoop_pinned f now t rest meta s hp]; exact ih meta s hm hs
    | false =>
      cases hq : isSupportedHttpUrl t.url with
      | false => rw [scanLoop_nonqual f now t rest meta s hq]; exact ih meta s hm hs
      | true =>
        cases hmt : meta t.id with
        | none =>
          rw [scanLoop_unknown f now t rest meta s hp hq hmt]
          exact ih _ s (hm.set t.id (le_refl now)) hs
        | some e =>
          by_cases hst : STALE_THRESHOLD_MS ≤ now - natOr e.lastActiveAt (natOr e.openedAt now)
          · cases hap : f.appendFails with
            | true =>
              rw [scanLoop_evict_throw f now t rest meta s e hap hp hq hmt hst]
              exact hs
            | false =>
              rw [scanLoop_evict f now t rest meta s e hap hp hq hmt hst]
              exact ih _ _ (hm.del t.id) hs
          · rw [scanLoop_known_live f now t rest meta s e hp hq hmt hst]
            exact ih meta s hm hs

end TabVault

namespace TabVault

/-- Main eviction lemma: in a failure-free sweep over a snapshot with
pairwise-distinct tab ids, an unpinned qualifying tab whose record has a
non-zero `lastActiveAt` with `now - lastActiveAt ≥ STALE_THRESHOLD_MS` is
closed exactly once, gets exactly one queue-append event carrying
`mkClosedItem now rec`, and its record is gone from the persisted map. -/
theorem scanLoop_stale_evicted (now : Nat) (tabs : List Tab) (meta : MetaMap)
    (s : Storage) (tab : Tab) (rec : TabRecord)
    (hnd : (tabs.map Tab.id).Nodup) (hmem : tab ∈ tabs)
    (hpin : tab.pinned = false) (hurl : isSupportedHttpUrl tab.url = true)
    (hrec : meta tab.id = some rec) (hla : rec.lastActiveAt ≠ 0)
    (hstale : rec.lastActiveAt + STALE_THRESHOLD_MS ≤ now) :
    (scanLoop noFail now tabs meta s).closeAttempts.count tab.id = 1
    ∧ (scanLoop noFail now tabs meta s).appendEvents.filter (fun ev => ev.1 == tab.id)
        = [(tab.id, mkClosedItem now rec)]
    ∧ (scanLoop noFail now tabs meta s).storage.tabMetadata tab.id = none := by
  induction tabs generalizing meta s with
  | nil => cases hmem
  | cons t rest ih =>
    have hnd' : (rest.map Tab.id).Nodup := (List.nodup_cons.mp hnd).2
    have hhead : t.id ∉ rest.map Tab.id := (List.nodup_cons.mp hnd).1
    rcases List.mem_cons.mp hmem with rfl | hmem'
    · -- the head of the snapshot is the stale tab itself
      have hstale' : STALE_THRESHOLD_MS ≤ now - natOr rec.lastActiveAt (natOr rec.openedAt now) := by
        unfold natOr
        rw [if_neg hla]
        omega
      rw [scanLoop_evict noFail now tab rest meta s rec rfl hpin hurl hrec hstale']
      refine ⟨?_, ?_, ?_⟩
      · show (tab.id :: _).count tab.id = 1
        rw [List.count_cons_self]
        have : tab.id ∉ (scanLoop noFail now rest (delMeta meta tab.id)
            (saveClosedItems s (loadClosedItems s ++ [mkClosedItem now rec]))).closeAttempts := by
          intro hx
          rcases scanLoop_attempts_mem noFail now rest _ _ tab.id hx with ⟨u, hu, _, _, hid⟩
          exact hhead (hid ▸ List.mem_map_of_mem Tab.id hu)
        rw [List.count_eq_zero.mpr this]
      · show List.filter _ ((tab.id, mkClosedItem now rec) :: _) = _
        rw [List.filter_cons_of_pos (by simp)]
        have : List.filter (fun ev => ev.1 == tab.id)
            (scanLoop noFail now rest (delMeta meta tab.id)
              (saveClosedItems s (loadClosedItems s ++ [mkClosedItem now rec]))).appendEvents
            = [] := by
          rw [List.filter_eq_nil_iff]
          intro ev hev
          rcases scanLoop_events_mem noFail now rest _ _ ev hev with ⟨u, hu, _, _, hid⟩
          simp only [beq_iff_eq]
          intro hx
          exact hhead ((hx ▸ hid) ▸ List.mem_map_of_mem Tab.id hu)
        rw [this]
      · show (scanLoop noFail now rest _ _).storage.tabMetadata tab.id = none
        rw [scanLoop_meta_notin now rest _ _ tab.id hhead]
        exact delMeta_self meta tab.id
    · -- the stale tab sits in the tail; the head has a different id
      have hne : t.id ≠ tab.id := by
        intro h
        exact hhead (h ▸ List.mem_map_of_mem Tab.id hmem')
      cases hp : t.pinned with
      | true =>
        rw [scanLoop_pinned noFail now t rest meta s hp]
        exact ih meta s hnd' hmem' hrec
      | false =>
        cases hq : isSupportedHttpUrl t.url with
        | false =>
          rw [scanLoop_nonqual noFail now t rest meta s hq]
          exact ih meta s hnd' hmem' hrec
        | true =>
          cases hmt : meta t.id with
          | none =>
            rw [scanLoop_unknown noFail now t rest meta s hp hq hmt]
            exact ih _ s hnd' hmem' (by rw [setMeta_ne meta t.id tab.id _ (Ne.symm hne)]; exact hrec)
          | some e =>
            by_cases hst : STALE_THRESHOLD_MS ≤ now - natOr e.lastActiveAt (natOr e.openedAt now)
            · rw [scanLoop_evict noFail now t rest meta s e rfl hp hq hmt hst]
              obtain ⟨ihc, ihf, ihm⟩ := ih (delMeta meta t.id)
                (saveClosedItems s (loadClosedItems s ++ [mkClosedItem now e]))
                hnd' hmem'
                (by rw [delMeta_ne meta t.id tab.id (Ne.symm hne)]; exact hrec)
              refine ⟨?_, ?_, ihm⟩
              · show (t.id :: _).count tab.id = 1
                rw [List.count_cons_of_ne (Ne.symm hne), ihc]
              · show List.filter _ ((t.id, mkClosedItem now e) :: _) = _
                rw [List.filter_cons_of_neg (by simp [hne]), ihf]
            · rw [scanLoop_known_live noFail now t rest meta s e hp hq hmt hst]
              exact ih meta s hnd' hmem' hrec

end TabVault

namespace TabVault

/-- C1 (amended): for every open, unpinned tab with a qualifying URL whose
record has a NON-ZERO `lastActiveAt` with `now − lastActiveAt ≥
staleThreshold` at scan time, a failure-free run of the Stale Scanner over a
snapshot with distinct tab ids closes the tab exactly once, removes its
TabRecord from the persisted Metadata Store, and produces exactly one
queue-append event for it carrying `{openedAt from the record, closedAt =
now, url = currentUrl or firstUrl, title = title or url}`; the persisted
Closed-Items Queue afterwards is the input queue plus exactly the appended
items, and the scan reports no error. (The `lastActiveAt ≠ 0` proviso is
forced by the JS falsy-`||`: a record with `lastActiveAt = 0` falls back to
`openedAt`, then `now`.) -/
theorem C1_stale_tab_evicted_exactly_once (now : Nat) (tabs : List Tab)
    (s : Storage) (tab : Tab) (rec : TabRecord)
    (hnd : (tabs.map Tab.id).Nodup) (hmem : tab ∈ tabs)
    (hpin : tab.pinned = false) (hurl : isSupportedHttpUrl tab.url = true)
    (hrec : s.tabMetadata tab.id = some rec) (hla : rec.lastActiveAt ≠ 0)
    (hstale : rec.lastActiveAt + STALE_THRESHOLD_MS ≤ now) :
    (checkForStaleTabs noFail now tabs s).closeAttempts.count tab.id = 1
    ∧ (checkForStaleTabs noFail now tabs s).appendEvents.filter (fun ev => ev.1 == tab.id)
        = [(tab.id, { openedAt := rec.openedAt, closedAt := now,
                      url := jsOr rec.currentUrl rec.firstUrl,
                      title := jsOr rec.title (jsOr rec.currentUrl rec.firstUrl) })]
    ∧ (checkForStaleTabs noFail now tabs s).storage.tabMetadata tab.id = none
    ∧ (checkForStaleTabs noFail now tabs s).storage.closedItems
        = s.closedItems ++ ((checkForStaleTabs noFail now tabs s).appendEvents).map Prod.snd
    ∧ (checkForStaleTabs noFail now tabs s).threw = false := by
  obtain ⟨h1, h2, h3⟩ :=
    scanLoop_stale_evicted now tabs (loadTabMetadata s) s tab rec hnd hmem hpin hurl hrec
      hla hstale
  exact ⟨h1, h2, h3, scanLoop_closedItems noFail now tabs (loadTabMetadata s) s,
    scanLoop_noFail_threw now tabs (loadTabMetadata s) s⟩

/-- Fixture: the record of a tab created (and never refocused) at `t = 1`. -/
def recT1 : TabRecord := ⟨1, 1, "http://x", "http://x", ""⟩

/-- Fixture: Scenario A's tab. -/
def tabX : Tab := ⟨7, "http://x", "", false⟩

/-- Fixture: storage holding exactly `recT1` for `tabX`. -/
def storageT1 : Storage := ⟨fun k => if k = 7 then some recT1 else none, [], none⟩

/-- Witness for `C1_stale_tab_evicted_exactly_once`: Scenario A shifted to
creation time `t = 1` (any positive creation time), scanned at
`t = 24h + 2ms`. -/
theorem C1_witness :
    (checkForStaleTabs noFail 86400002 [tabX] storageT1).closeAttempts.count tabX.id = 1
    ∧ (checkForStaleTabs noFail 86400002 [tabX] storageT1).appendEvents.filter
          (fun ev => ev.1 == tabX.id)
        = [(tabX.id, { openedAt := recT1.openedAt, closedAt := 86400002,
                       url := jsOr recT1.currentUrl recT1.firstUrl,
                       title := jsOr recT1.title (jsOr recT1.currentUrl recT1.firstUrl) })]
    ∧ (checkForStaleTabs noFail 86400002 [tabX] storageT1).storage.tabMetadata tabX.id = none
    ∧ (checkForStaleTabs noFail 86400002 [tabX] storageT1).storage.closedItems
        = storageT1.closedItems
            ++ ((checkForStaleTabs noFail 86400002 [tabX] storageT1).appendEvents).map Prod.snd
    ∧ (checkForStaleTabs noFail 86400002 [tabX] storageT1).threw = false :=
  C1_stale_tab_evicted_exactly_once 86400002 [tabX] storageT1 tabX recT1
    (by decide) (by decide) rfl (by decide) rfl (by decide) (by decide)

/-- Fixture: the record of Scenario A's tab created at `t = 0` — both
timestamps are the JS-falsy value `0`. -/
def recT0 : TabRecord := ⟨0, 0, "http://x", "http://x", ""⟩

/-- Fixture: storage holding exactly `recT0` for `tabX`. -/
def storageT0 : Storage := ⟨fun k => if k = 7 then some recT0 else none, [], none⟩

/-- C1 counterexample: Scenario A exactly as the claim states it — tab
created at `t = 0` with URL `http://x`, never refocused, scanned at
`t = 24h + 1ms`. The staleness condition `now − lastActiveAt ≥ 24h` holds
(86400001 − 0 ≥ 86400000) and the tab is open, unpinned and qualifying, yet
the scan closes nothing, appends nothing, and keeps the record: the JS
expression `entry.lastActiveAt || entry.openedAt || now` treats the
timestamp `0` as falsy and falls through to `now`, making the computed
inactive duration `0`. -/
theorem C1_counterexample :
    (tabX.pinned = false ∧ isSupportedHttpUrl tabX.url = true
      ∧ storageT0.tabMetadata tabX.id = some recT0
      ∧ STALE_THRESHOLD_MS ≤ 86400001 - recT0.lastActiveAt)
    ∧ (checkForStaleTabs noFail 86400001 [tabX] storageT0).closeAttempts = []
    ∧ (checkForStaleTabs noFail 86400001 [tabX] storageT0).appendEvents = []
    ∧ (checkForStaleTabs noFail 86400001 [tabX] storageT0).storage.closedItems = []
    ∧ (checkForStaleTabs noFail 86400001 [tabX] storageT0).storage.tabMetadata tabX.id
        = some recT0 := by
  refine ⟨⟨rfl, by decide, rfl, by decide⟩, ?_, ?_, ?_, ?_⟩ <;> decide

end TabVault

namespace TabVault

/-- C8: a pinned tab is never evicted by the Stale Scanner, for any failure
pattern, any scan time and any stored record (hence any inactivity
duration, 48h included): no scan run attempts to close it, no queue-append
event is produced for it, and its persisted record is untouched. -/
theorem C8_pinned_never_evicted (f : Failures) (now : Nat) (tabs : List Tab)
    (s : Storage) (p : Tab)
    (hnd : (tabs.map Tab.id).Nodup) (hmem : p ∈ tabs) (hpin : p.pinned = true) :
    (checkForStaleTabs f now tabs s).closeAttempts.count p.id = 0
    ∧ (checkForStaleTabs f now tabs s).appendEvents.filter (fun ev => ev.1 == p.id) = []
    ∧ (checkForStaleTabs f now tabs s).storage.tabMetadata p.id = s.tabMetadata p.id := by
  have hinj : ∀ t ∈ tabs, t.id = p.id → t = p := by
    intro t ht hid
    exact List.inj_on_of_nodup_map hnd ht hmem hid
  refine ⟨?_, ?_, ?_⟩
  · rw [List.count_eq_zero]
    intro hx
    rcases scanLoop_attempts_mem f now tabs (loadTabMetadata s) s p.id hx with
      ⟨t, ht, htp, _, hid⟩
    rw [hinj t ht hid.symm] at htp
    rw [hpin] at htp
    cases htp
  · rw [List.filter_eq_nil_iff]
    intro ev hev
    rcases scanLoop_events_mem f now tabs (loadTabMetadata s) s ev hev with
      ⟨t, ht, htp, _, hid⟩
    simp only [beq_iff_eq]
    intro hx
    rw [hinj t ht (hid.symm.trans hx)] at htp
    rw [hpin] at htp
    cases htp
  · exact scanLoop_meta_safe f now tabs (loadTabMetadata s) s p.id
      (fun t ht hid => Or.inl (by rw [hinj t ht hid]; exact hpin)) rfl

/-- Fixture: a pinned tab. -/
def tabPinned : Tab := ⟨3, "http://y", "", true⟩

/-- Fixture: storage where the pinned tab has been inactive 48 hours at
`now = 172800001`. -/
def storagePinned : Storage := ⟨fun k => if k = 3 then some ⟨1, 1, "http://y", "http://y", ""⟩ else none, [], none⟩

/-- Witness for `C8_pinned_never_evicted`: a pinned tab 48 hours inactive. -/
theorem C8_witness :
    (checkForStaleTabs noFail 172800001 [tabPinned] storagePinned).closeAttempts.count
        tabPinned.id = 0
    ∧ (checkForStaleTabs noFail 172800001 [tabPinned] storagePinned).appendEvents.filter
        (fun ev => ev.1 == tabPinned.id) = []
    ∧ (checkForStaleTabs noFail 172800001 [tabPinned]
        storagePinned).storage.tabMetadata tabPinned.id
      = storagePinned.tabMetadata tabPinned.id :=
  C8_pinned_never_evicted noFail 172800001 [tabPinned] storagePinned tabPinned
    (by decide) (by decide) rfl

end TabVault

namespace TabVault

/-- C2 evaluation at the failing inputs: the options page persists the
configured threshold under `inactivityThresholdHours`, but the scan's
comparison ignores it. With a saved threshold of 1 hour and a tab inactive
for 2 hours, nothing is evicted (the hard-coded 24h constant governs); with
a saved threshold of 48 hours and a tab inactive just over 24 hours, the
tab IS evicted. -/
theorem C2_threshold_ignored :
    ((saveInactivityThreshold 1 storageT1).1.inactivityThresholdHours = some 1
      ∧ 1 * 60 * 60 * 1000 ≤ 7200001 - recT1.lastActiveAt
      ∧ (checkForStaleTabs noFail 7200001 [tabX]
          (saveInactivityThreshold 1 storageT1).1).closeAttempts = []
      ∧ (checkForStaleTabs noFail 7200001 [tabX]
          (saveInactivityThreshold 1 storageT1).1).storage.tabMetadata tabX.id = some recT1)
    ∧ ((saveInactivityThreshold 48 storageT1).1.inactivityThresholdHours = some 48
      ∧ 86400002 - recT1.lastActiveAt < 48 * 60 * 60 * 1000
      ∧ (checkForStaleTabs noFail 86400002 [tabX]
          (saveInactivityThreshold 48 storageT1).1).closeAttempts = [tabX.id]
      ∧ (checkForStaleTabs noFail 86400002 [tabX]
          (saveInactivityThreshold 48 storageT1).1).storage.tabMetadata tabX.id = none) := by
  decide

/-- The reconciliation loop of the Initializer preserves the TabRecord
invariant. -/
theorem initLoop_invMeta (now : Nat) (tabs : List Tab) (m : MetaMap) (c : Bool)
    (hm : InvMeta m) : InvMeta (initLoop now tabs m c).1 := by
  induction tabs generalizing m c with
  | nil => exact hm
  | cons t rest ih =>
    unfold initLoop
    split
    · exact ih m c hm
    · split
      · exact ih m c hm
      · exact ih _ true (hm.set t.id (le_refl now))

/-- C5: assuming a non-decreasing clock (`now` is at or after every
`openedAt` in the store), every core operation — onCreated, onUpdated,
onActivated, onRemoved, the Initializer reconciliation and the Stale
Scanner sweep — preserves the invariant that every TabRecord satisfies
`lastActiveAt ≥ openedAt`. -/
theorem C5_invariant_preserved (now : Nat) (tab : Tab) (tabId : Nat)
    (changeInfo : ChangeInfo) (liveTab : Option Tab) (tabs : List Tab)
    (f : Failures) (s : Storage)
    (hInv : InvMeta s.tabMetadata)
    (hClock : ∀ id r, s.tabMetadata id = some r → r.openedAt ≤ now) :
    InvMeta (handleTabCreated now tab s).tabMetadata
    ∧ InvMeta (handleTabUpdated now tabId changeInfo tab s).tabMetadata
    ∧ InvMeta (handleTabActivated now tabId liveTab s).tabMetadata
    ∧ InvMeta (handleTabRemoved tabId s).tabMetadata
    ∧ InvMeta (initialiseExistingTabs now tabs s).1.tabMetadata
    ∧ InvMeta (checkForStaleTabs f now tabs s).storage.tabMetadata := by
  refine ⟨?_, ?_, ?_, ?_, ?_, ?_⟩
  · unfold handleTabCreated
    split
    · exact hInv
    · exact hInv.set tab.id (le_refl now)
  · unfold handleTabUpdated
    by_cases hg : changeInfo.url = "" ∧ changeInfo.title = "" ∧ changeInfo.status ≠ "complete"
    · rw [if_pos hg]; exact hInv
    · rw [if_neg hg]
      cases hmt : loadTabMetadata s tabId with
      | none =>
        simp only [hmt]
        split
        · exact hInv
        · refine hInv.set tabId ?_
          exact le_refl now
      | some entry =>
        simp only [hmt]
        refine hInv.set tabId ?_
        have hte := hInv tabId entry hmt
        by_cases h1 : isSupportedHttpUrl tab.url = true <;>
          by_cases h2 : tab.title ≠ "" ∨ changeInfo.title ≠ "" <;>
            simp only [h1, h2, if_true, if_false, ite_true, ite_false, if_pos, if_neg,
              eq_self_iff_true, not_true, not_false_iff] <;>
            simp [h1, h2] <;> exact hte
  · unfold handleTabActivated
    cases hmt : loadTabMetadata s tabId with
    | none =>
      simp only [hmt]
      cases liveTab with
      | none => exact hInv
      | some tb =>
        dsimp only
        split
        · exact hInv
        · refine hInv.set tabId ?_
          exact le_refl now
    | some entry =>
      simp only [hmt]
      refine hInv.set tabId ?_
      exact hClock tabId entry hmt
  · unfold handleTabRemoved
    cases hmt : loadTabMetadata s tabId with
    | none => simp only [hmt]; exact hInv
    | some entry => simp only [hmt]; exact hInv.del tabId
  · unfold initialiseExistingTabs
    dsimp only
    split
    · exact initLoop_invMeta now tabs (loadTabMetadata s) false hInv
    · exact hInv
  · exact scanLoop_invMeta f now tabs (loadTabMetadata s) s hInv hInv

/-- Witness for `C5_invariant_preserved` on a singleton store. -/
theorem C5_witness :
    InvMeta (handleTabCreated 10 tabA storageT1).tabMetadata
    ∧ InvMeta (handleTabUpdated 10 1 ⟨"", "N", ""⟩ tabA storageT1).tabMetadata
    ∧ InvMeta (handleTabActivated 10 1 (some tabA) storageT1).tabMetadata
    ∧ InvMeta (handleTabRemoved 1 storageT1).tabMetadata
    ∧ InvMeta (initialiseExistingTabs 10 [tabA] storageT1).1.tabMetadata
    ∧ InvMeta (checkForStaleTabs noFail 10 [tabA] storageT1).storage.tabMetadata :=
  C5_invariant_preserved 10 tabA 1 ⟨"", "N", ""⟩ (some tabA) [tabA] noFail storageT1
    (by
      intro id r h
      by_cases hid : id = 7
      · simp [storageT1, hid] at h
        subst h
        decide
      · simp [storageT1, hid] at h)
    (by
      intro id r h
      by_cases hid : id = 7
      · simp [storageT1, hid] at h
        subst h
        decide
      · simp [storageT1, hid] at h)

end TabVault

namespace TabVault

/-- The Initializer reconciliation never removes an existing record. -/
theorem initLoop_mono (now : Nat) (tabs : List Tab) (m : MetaMap) (c : Bool) (id : Nat)
    (h : (m id).isSome) : ((initLoop now tabs m c).1 id).isSome := by
  induction tabs generalizing m c with
  | nil => exact h
  | cons t rest ih =>
    unfold initLoop
    split
    · exact ih m c h
    · split
      · exact ih m c h
      · refine ih _ true ?_
        by_cases hid : id = t.id
        · subst hid; rw [setMeta_self]; rfl
        · rw [setMeta_ne m t.id id _ hid]; exact h

/-- After one Initializer reconciliation, every qualifying tab of the
snapshot has a record. -/
theorem initLoop_covers (now : Nat) (tabs : List Tab) (m : MetaMap) (c : Bool) :
    ∀ t ∈ tabs, isSupportedHttpUrl t.url = true →
      (((initLoop now tabs m c).1) t.id).isSome := by
  induction tabs generalizing m c with
  | nil => intro t ht; cases ht
  | cons u rest ih =>
    intro t ht hq
    rcases List.mem_cons.mp ht with rfl | ht'
    · unfold initLoop
      split
      · rename_i hnq; exact absurd hq hnq
      · split
        · rename_i e hmt
          exact initLoop_mono now rest m c t.id (by rw [hmt]; rfl)
        · exact initLoop_mono now rest _ true t.id (by rw [setMeta_self]; rfl)
    · unfold initLoop
      split
      · exact ih m c t ht' hq
      · split
        · exact ih m c t ht' hq
        · exact ih _ true t ht' hq

/-- If every qualifying tab already has a record, the reconciliation
changes nothing and keeps the `changed` flag. -/
theorem initLoop_noop (now : Nat) (tabs : List Tab) (m : MetaMap) (c : Bool)
    (h : ∀ t ∈ tabs, isSupportedHttpUrl t.url = true → (m t.id).isSome) :
    initLoop now tabs m c = (m, c) := by
  induction tabs generalizing m c with
  | nil => rfl
  | cons t rest ih =>
    by_cases hnq : ¬ isSupportedHttpUrl t.url = true
    · unfold initLoop
      rw [if_pos hnq]
      exact ih m c (fun u hu => h u (List.mem_cons_of_mem t hu))
    · have hq : isSupportedHttpUrl t.url = true := not_not.mp hnq
      cases hmt : m t.id with
      | some e =>
        unfold initLoop
        rw [if_neg hnq]
        simp only [hmt]
        exact ih m c (fun u hu => h u (List.mem_cons_of_mem t hu))
      | none =>
        exfalso
        have hs := h t (List.mem_cons_self t rest) hq
        rw [hmt] at hs
        simp at hs

/-- If the reconciliation reports no change, the map is untouched and the
incoming flag was already `false`. -/
theorem initLoop_unchanged (now : Nat) (tabs : List Tab) (m : MetaMap) (c : Bool)
    (h : (initLoop now tabs m c).2 = false) :
    (initLoop now tabs m c).1 = m ∧ c = false := by
  induction tabs generalizing m c with
  | nil => exact ⟨rfl, h⟩
  | cons t rest ih =>
    by_cases hq : ¬ isSupportedHttpUrl t.url = true
    · unfold initLoop at h ⊢
      rw [if_pos hq] at h ⊢
      exact ih m c h
    · cases hmt : m t.id with
      | some e =>
        unfold initLoop at h ⊢
        rw [if_neg hq] at h ⊢
        simp only [hmt] at h ⊢
        exact ih m c h
      | none =>
        unfold initLoop at h ⊢
        rw [if_neg hq] at h ⊢
        simp only [hmt] at h ⊢
        obtain ⟨_, hc⟩ := ih _ true h
        simp at hc

/-- If every qualifying open tab already has a record,
`initialiseExistingTabs` performs no insertion and no persistence write. -/
theorem initialiseExistingTabs_noop (now : Nat) (tabs : List Tab) (s : Storage)
    (h : ∀ t ∈ tabs, isSupportedHttpUrl t.url = true →
      ((loadTabMetadata s) t.id).isSome) :
    initialiseExistingTabs now tabs s = (s, false) := by
  simp [initialiseExistingTabs, initLoop_noop now tabs (loadTabMetadata s) false h]

/-- After `initialiseExistingTabs`, every qualifying tab of the snapshot
has a persisted record. -/
theorem initialiseExistingTabs_covers (now : Nat) (tabs : List Tab) (s : Storage) :
    ∀ t ∈ tabs, isSupportedHttpUrl t.url = true →
      ((loadTabMetadata (initialiseExistingTabs now tabs s).1) t.id).isSome := by
  intro t ht hq
  unfold initialiseExistingTabs
  dsimp only
  split
  · exact initLoop_covers now tabs (loadTabMetadata s) false t ht hq
  · rename_i hc
    have h2 := initLoop_unchanged now tabs (loadTabMetadata s) false (by simpa using hc)
    show ((loadTabMetadata s) t.id).isSome
    rw [← h2.1]
    exact initLoop_covers now tabs (loadTabMetadata s) false t ht hq

/-- C6: the Initializer is idempotent. After one run, a second run (at any
later clock reading) with the same open-tab set and no intervening tab
events creates no new alarm schedule (the created flag of `ensureAlarm` is
`false`), performs no insertion and no persistence write (`saved = false`),
and leaves both the alarm state and the storage exactly as the first run
left them. -/
theorem C6_initializer_idempotent (now1 now2 : Nat) (tabs : List Tab)
    (alarmExists : Bool) (s : Storage) :
    (runInitializer now2 tabs (runInitializer now1 tabs alarmExists s).1.1
        (runInitializer now1 tabs alarmExists s).2.1).1
      = ((runInitializer now1 tabs alarmExists s).1.1, false)
    ∧ (runInitializer now2 tabs (runInitializer now1 tabs alarmExists s).1.1
        (runInitializer now1 tabs alarmExists s).2.1).2
      = ((runInitializer now1 tabs alarmExists s).2.1, false) := by
  constructor
  · show ensureAlarm (ensureAlarm alarmExists).1 = ((ensureAlarm alarmExists).1, false)
    cases alarmExists <;> rfl
  · show initialiseExistingTabs now2 tabs (initialiseExistingTabs now1 tabs s).1
        = ((initialiseExistingTabs now1 tabs s).1, false)
    exact initialiseExistingTabs_noop now2 tabs _
      (initialiseExistingTabs_covers now1 tabs s)

end TabVault

namespace TabVault

/-- Fixture: a record created while its tab was on an http URL. -/
def recOld : TabRecord := ⟨5, 5, "http://a", "http://a", "Old"⟩

/-- Fixture: storage holding `recOld` under tab id 1. -/
def storageOld : Storage := ⟨fun k => if k = 1 then some recOld else none, [], none⟩

/-- Fixture: the same tab after navigating to a non-qualifying URL. -/
def tabChrome : Tab := ⟨1, "chrome://settings", "Settings", false⟩

/-- C4 counterexample: a tab with an existing record navigates to the
non-qualifying URL `chrome://settings`. The claim says no listener ever
updates any field of its record, but two listeners do: `onUpdated` fires
with a title and overwrites the record's `title` field, and `onActivated`
(whose existing-record branch performs no URL check at all) bumps the
record's `lastActiveAt`. -/
theorem C4_counterexample :
    isSupportedHttpUrl tabChrome.url = false
    ∧ storageOld.tabMetadata 1 = some recOld
    ∧ (handleTabUpdated 10 1 ⟨"", "Settings", ""⟩ tabChrome storageOld).tabMetadata 1
        = some ⟨5, 5, "http://a", "http://a", "Settings"⟩
    ∧ ¬ (handleTabUpdated 10 1 ⟨"", "Settings", ""⟩ tabChrome storageOld).tabMetadata 1
        = some recOld
    ∧ (handleTabActivated 20 1 (some tabChrome) storageOld).tabMetadata 1
        = some ⟨5, 20, "http://a", "http://a", "Old"⟩
    ∧ ¬ (handleTabActivated 20 1 (some tabChrome) storageOld).tabMetadata 1
        = some recOld := by
  decide

/-- Reduction of `handleTabUpdated` for an existing record when the tab's
URL does not qualify: only the title can change. -/
theorem handleTabUpdated_known_nonqual (now : Nat) (tabId : Nat)
    (changeInfo : ChangeInfo) (tab : Tab) (s : Storage) (e : TabRecord)
    (hurl : isSupportedHttpUrl tab.url = false)
    (he : s.tabMetadata tabId = some e)
    (hg : ¬(changeInfo.url = "" ∧ changeInfo.title = "" ∧ changeInfo.status ≠ "complete")) :
    handleTabUpdated now tabId changeInfo tab s
      = saveTabMetadata s (setMeta s.tabMetadata tabId
          (if tab.title ≠ "" ∨ changeInfo.title ≠ ""
            then { e with title := jsOr tab.title (jsOr changeInfo.title e.title) }
            else e)) := by
  have hurl' : ¬ isSupportedHttpUrl tab.url = true := by simp [hurl]
  unfold handleTabUpdated
  rw [if_neg hg]
  simp only [loadTabMetadata, he, if_neg hurl']

/-- C4 (amended): for every tab whose URL is non-qualifying, no handler
ever creates a TabRecord for it (onCreated is a no-op; onUpdated and
onActivated create nothing when no record exists), and no URL field is
ever written from it. An EXISTING record (created while the URL qualified)
is not immune, in exactly two ways: onUpdated may overwrite its `title`
(leaving `openedAt`, `lastActiveAt`, `firstUrl`, `currentUrl` and every
other store entry untouched), and onActivated — whose existing-record
branch never consults the URL — overwrites its `lastActiveAt` with `now`
(leaving every other field and every other store entry untouched). -/
theorem C4_nonqualifying_guards (now : Nat) (tab : Tab) (tabId : Nat)
    (changeInfo : ChangeInfo) (s : Storage)
    (hurl : isSupportedHttpUrl tab.url = false) :
    handleTabCreated now tab s = s
    ∧ (s.tabMetadata tabId = none → handleTabUpdated now tabId changeInfo tab s = s)
    ∧ (∀ e, s.tabMetadata tabId = some e →
        ((handleTabUpdated now tabId changeInfo tab s).tabMetadata tabId = some e
          ∨ (handleTabUpdated now tabId changeInfo tab s).tabMetadata tabId
              = some { e with title := jsOr tab.title (jsOr changeInfo.title e.title) })
        ∧ ∀ id, id ≠ tabId →
            (handleTabUpdated now tabId changeInfo tab s).tabMetadata id
              = s.tabMetadata id)
    ∧ (s.tabMetadata tabId = none → handleTabActivated now tabId (some tab) s = s)
    ∧ (∀ e, s.tabMetadata tabId = some e →
        (handleTabActivated now tabId (some tab) s).tabMetadata tabId
            = some { e with lastActiveAt := now }
        ∧ ∀ id, id ≠ tabId →
            (handleTabActivated now tabId (some tab) s).tabMetadata id
              = s.tabMetadata id) := by
  have hurl' : ¬ isSupportedHttpUrl tab.url = true := by simp [hurl]
  refine ⟨?_, ?_, ?_, ?_, ?_⟩
  · unfold handleTabCreated
    rw [if_pos hurl']
  · intro h
    unfold handleTabUpdated
    by_cases hg : changeInfo.url = "" ∧ changeInfo.title = "" ∧ changeInfo.status ≠ "complete"
    · rw [if_pos hg]
    · rw [if_neg hg]
      simp only [loadTabMetadata, h, if_pos hurl']
  · intro e he
    by_cases hg : changeInfo.url = "" ∧ changeInfo.title = "" ∧ changeInfo.status ≠ "complete"
    · have hres : handleTabUpdated now tabId changeInfo tab s = s := by
        unfold handleTabUpdated
        rw [if_pos hg]
      rw [hres]
      exact ⟨Or.inl he, fun id _ => rfl⟩
    · rw [handleTabUpdated_known_nonqual now tabId changeInfo tab s e hurl he hg]
      by_cases ht : tab.title ≠ "" ∨ changeInfo.title ≠ ""
      · rw [if_pos ht]
        exact ⟨Or.inr (setMeta_self _ _ _), fun id hid => setMeta_ne _ _ _ _ hid⟩
      · rw [if_neg ht]
        refine ⟨Or.inl (setMeta_self _ _ _), fun id hid => setMeta_ne _ _ _ _ hid⟩
  · intro h
    unfold handleTabActivated
    simp only [loadTabMetadata, h, if_pos hurl']
  · intro e he
    unfold handleTabActivated
    simp only [loadTabMetadata, he]
    exact ⟨setMeta_self _ _ _, fun id hid => setMeta_ne _ _ _ _ hid⟩

/-- Witness for `C4_nonqualifying_guards` at the `chrome://settings` tab. -/
theorem C4_witness :
    handleTabCreated 10 tabChrome storageOld = storageOld
    ∧ (storageOld.tabMetadata 1 = none →
        handleTabUpdated 10 1 ⟨"", "Settings", ""⟩ tabChrome storageOld = storageOld)
    ∧ (∀ e, storageOld.tabMetadata 1 = some e →
        ((handleTabUpdated 10 1 ⟨"", "Settings", ""⟩ tabChrome storageOld).tabMetadata 1
            = some e
          ∨ (handleTabUpdated 10 1 ⟨"", "Settings", ""⟩ tabChrome storageOld).tabMetadata 1
              = some { e with title := jsOr tabChrome.title (jsOr "Settings" e.title) })
        ∧ ∀ id, id ≠ 1 →
            (handleTabUpdated 10 1 ⟨"", "Settings", ""⟩ tabChrome storageOld).tabMetadata id
              = storageOld.tabMetadata id)
    ∧ (storageOld.tabMetadata 1 = none →
        handleTabActivated 10 1 (some tabChrome) storageOld = storageOld)
    ∧ (∀ e, storageOld.tabMetadata 1 = some e →
        (handleTabActivated 10 1 (some tabChrome) storageOld).tabMetadata 1
            = some { e with lastActiveAt := 10 }
        ∧ ∀ id, id ≠ 1 →
            (handleTabActivated 10 1 (some tabChrome) storageOld).tabMetadata id
              = storageOld.tabMetadata id) :=
  C4_nonqualifying_guards 10 tabChrome 1 ⟨"", "Settings", ""⟩ storageOld (by decide)

end TabVault

namespace TabVault

/-! ### Markdown generation (`options.js`) -/

/-- First pass of `escapeMarkdownLinkText`: `.replace(/\[/g, "\\[")`. -/
def replaceOpenBracket : List Char → List Char
  | [] => []
  | c :: rest =>
    if c = '[' then '\\' :: '[' :: replaceOpenBracket rest
    else c :: replaceOpenBracket rest

/-- Second pass of `escapeMarkdownLinkText`: `.replace(/\]/g, "\\]")`. -/
def replaceCloseBracket : List Char → List Char
  | [] => []
  | c :: rest =>
    if c = ']' then '\\' :: ']' :: replaceCloseBracket rest
    else c :: replaceCloseBracket rest

/-- Function `escapeMarkdownLinkText` (`options.js` lines 40-43):
`(text || "").replace(/\[/g, "\\[").replace(/\]/g, "\\]")`. -/
def escapeMarkdownLinkText (text : String) : String :=
  ⟨replaceCloseBracket (replaceOpenBracket (jsOr text "").toList)⟩

/-- The `- [ ] [title](url)  ` task line of `buildMarkdownFromItems`
(`options.js` lines 66-69): title from `item.title || item.url ||
"Untitled"` run through the escaper, url from `item.url || ""`. -/
def markdownTaskLine (item : ClosedItem) : String :=
  "- [ ] [" ++ escapeMarkdownLinkText (jsOr item.title (jsOr item.url "Untitled"))
    ++ "](" ++ jsOr item.url "" ++ ")  "

/-- Specification of the escape, one character at a time:
`[` ↦ `\[`, `]` ↦ `\]`, anything else unchanged. -/
def escChar (c : Char) : List Char :=
  if c = '[' then ['\\', '[']
  else if c = ']' then ['\\', ']']
  else [c]

def escapeSpec : List Char → List Char
  | [] => []
  | c :: rest => escChar c ++ escapeSpec rest

/-- Recovery map: `\[` ↦ `[`, `\]` ↦ `]`, anything else unchanged. -/
def unescapeMarkdownLinkText : List Char → List Char
  | [] => []
  | [c] => [c]
  | c1 :: c2 :: rest =>
    if c1 = '\\' ∧ (c2 = '[' ∨ c2 = ']')
    then c2 :: unescapeMarkdownLinkText rest
    else c1 :: unescapeMarkdownLinkText (c2 :: rest)

/-- Link-text validity: every `[` or `]` is immediately preceded by a
backslash, so the emitted `[title](url)` stays well-formed link syntax. -/
def bracketsEscaped : List Char → Bool
  | [] => true
  | [c] => if c = '[' ∨ c = ']' then false else true
  | c1 :: c2 :: rest =>
    if c1 = '\\' ∧ (c2 = '[' ∨ c2 = ']') then bracketsEscaped rest
    else if c1 = '[' ∨ c1 = ']' then false
    else bracketsEscaped (c2 :: rest)

theorem jsOr_empty (a : String) : jsOr a "" = a := by
  unfold jsOr
  split
  · rename_i h; rw [h]
  · rfl

theorem escapeSpec_cons_open (rest : List Char) :
    escapeSpec ('[' :: rest) = '\\' :: '[' :: escapeSpec rest := by
  simp only [escapeSpec, escChar]
  rw [if_pos trivial]
  rfl

theorem escapeSpec_cons_close (rest : List Char) :
    escapeSpec (']' :: rest) = '\\' :: ']' :: escapeSpec rest := by
  simp only [escapeSpec, escChar]
  rw [if_pos trivial]
  rfl

theorem escapeSpec_cons_other (c : Char) (rest : List Char)
    (h1 : c ≠ '[') (h2 : c ≠ ']') :
    escapeSpec (c :: rest) = c :: escapeSpec rest := by
  simp only [escapeSpec, escChar]
  rw [if_neg h1, if_neg h2]
  rfl

theorem unescape_esc (c2 : Char) (rest : List Char) (h : c2 = '[' ∨ c2 = ']') :
    unescapeMarkdownLinkText ('\\' :: c2 :: rest)
      = c2 :: unescapeMarkdownLinkText rest := by
  simp only [unescapeMarkdownLinkText]
  rw [if_pos ⟨trivial, h⟩]

theorem unescape_plain (c1 c2 : Char) (rest : List Char)
    (h : ¬(c1 = '\\' ∧ (c2 = '[' ∨ c2 = ']'))) :
    unescapeMarkdownLinkText (c1 :: c2 :: rest)
      = c1 :: unescapeMarkdownLinkText (c2 :: rest) := by
  simp only [unescapeMarkdownLinkText]
  rw [if_neg h]

theorem bracketsEscaped_one (c : Char) (h : ¬(c = '[' ∨ c = ']')) :
    bracketsEscaped [c] = true := by
  simp only [bracketsEscaped]
  rw [if_neg h]

theorem bracketsEscaped_esc (c2 : Char) (rest : List Char)
    (h : c2 = '[' ∨ c2 = ']') :
    bracketsEscaped ('\\' :: c2 :: rest) = bracketsEscaped rest := by
  simp only [bracketsEscaped]
  rw [if_pos ⟨trivial, h⟩]

theorem bracketsEscaped_plain (c1 c2 : Char) (rest : List Char)
    (hA : ¬(c1 = '\\' ∧ (c2 = '[' ∨ c2 = ']'))) (hB : ¬(c1 = '[' ∨ c1 = ']')) :
    bracketsEscaped (c1 :: c2 :: rest) = bracketsEscaped (c2 :: rest) := by
  simp only [bracketsEscaped]
  rw [if_neg hA, if_neg hB]

/-- The two sequential regex passes equal the single per-character map. -/
theorem escape_eq_escapeSpec (l : List Char) :
    replaceCloseBracket (replaceOpenBracket l) = escapeSpec l := by
  induction l with
  | nil => rfl
  | cons c rest ih =>
    by_cases h1 : c = '['
    · subst h1
      rw [show replaceOpenBracket ('[' :: rest)
            = '\\' :: '[' :: replaceOpenBracket rest from by
          simp only [replaceOpenBracket]; rw [if_pos trivial]]
      rw [show replaceCloseBracket ('\\' :: '[' :: replaceOpenBracket rest)
            = '\\' :: '[' :: replaceCloseBracket (replaceOpenBracket rest) from by
          simp only [replaceCloseBracket]; rw [if_neg (by decide), if_neg (by decide)]]
      rw [escapeSpec_cons_open, ih]
    · by_cases h2 : c = ']'
      · subst h2
        rw [show replaceOpenBracket (']' :: rest)
              = ']' :: replaceOpenBracket rest from by
            simp only [replaceOpenBracket]; rw [if_neg (by decide)]]
        rw [show replaceCloseBracket (']' :: replaceOpenBracket rest)
              = '\\' :: ']' :: replaceCloseBracket (replaceOpenBracket rest) from by
            simp only [replaceCloseBracket]; rw [if_pos trivial]]
        rw [escapeSpec_cons_close, ih]
      · rw [show replaceOpenBracket (c :: rest) = c :: replaceOpenBracket rest from by
            simp only [replaceOpenBracket]; rw [if_neg h1]]
        rw [show replaceCloseBracket (c :: replaceOpenBracket rest)
              = c :: replaceCloseBracket (replaceOpenBracket rest) from by
            simp only [replaceCloseBracket]; rw [if_neg h2]]
        rw [escapeSpec_cons_other c rest h1 h2, ih]

theorem escapeSpec_eq_nil (l : List Char) (h : escapeSpec l = []) : l = [] := by
  cases l with
  | nil => rfl
  | cons c rest =>
    exfalso
    by_cases h1 : c = '['
    · subst h1; rw [escapeSpec_cons_open] at h; exact List.cons_ne_nil _ _ h
    · by_cases h2 : c = ']'
      · subst h2; rw [escapeSpec_cons_close] at h; exact List.cons_ne_nil _ _ h
      · rw [escapeSpec_cons_other c rest h1 h2] at h; exact List.cons_ne_nil _ _ h

/-- The escaped text never starts with a bare bracket. -/
theorem escapeSpec_head_safe (l : List Char) (d : Char) (tail : List Char)
    (h : escapeSpec l = d :: tail) : d ≠ '[' ∧ d ≠ ']' := by
  cases l with
  | nil => cases h
  | cons c rest =>
    by_cases h1 : c = '['
    · subst h1
      rw [escapeSpec_cons_open] at h
      injection h with hd _
      subst hd
      exact ⟨by decide, by decide⟩
    · by_cases h2 : c = ']'
      · subst h2
        rw [escapeSpec_cons_close] at h
        injection h with hd _
        subst hd
        exact ⟨by decide, by decide⟩
      · rw [escapeSpec_cons_other c rest h1 h2] at h
        injection h with hd _
        subst hd
        exact ⟨h1, h2⟩

/-- Round trip: the original title is recoverable from the escaped text. -/
theorem unescape_escapeSpec (l : List Char) :
    unescapeMarkdownLinkText (escapeSpec l) = l := by
  induction l with
  | nil => rfl
  | cons c rest ih =>
    by_cases h1 : c = '['
    · subst h1
      rw [escapeSpec_cons_open, unescape_esc '[' (escapeSpec rest) (Or.inl rfl), ih]
    · by_cases h2 : c = ']'
      · subst h2
        rw [escapeSpec_cons_close, unescape_esc ']' (escapeSpec rest) (Or.inr rfl), ih]
      · rw [escapeSpec_cons_other c rest h1 h2]
        cases hr : escapeSpec rest with
        | nil =>
          have hnil : rest = [] := escapeSpec_eq_nil rest hr
          subst hnil
          rfl
        | cons d tail =>
          obtain ⟨hd1, hd2⟩ := escapeSpec_head_safe rest d tail hr
          rw [unescape_plain c d tail
              (by rintro ⟨-, hd⟩; rcases hd with hh | hh; exacts [hd1 hh, hd2 hh]),
            ← hr, ih]

/-- The escaped text has every bracket preceded by a backslash. -/
theorem bracketsEscaped_escapeSpec (l : List Char) :
    bracketsEscaped (escapeSpec l) = true := by
  induction l with
  | nil => rfl
  | cons c rest ih =>
    by_cases h1 : c = '['
    · subst h1
      rw [escapeSpec_cons_open, bracketsEscaped_esc '[' (escapeSpec rest) (Or.inl rfl), ih]
    · by_cases h2 : c = ']'
      · subst h2
        rw [escapeSpec_cons_close, bracketsEscaped_esc ']' (escapeSpec rest) (Or.inr rfl), ih]
      · rw [escapeSpec_cons_other c rest h1 h2]
        have hcb : ¬(c = '[' ∨ c = ']') := by rintro (h | h); exacts [h1 h, h2 h]
        cases hr : escapeSpec rest with
        | nil => exact bracketsEscaped_one c hcb
        | cons d tail =>
          obtain ⟨hd1, hd2⟩ := escapeSpec_head_safe rest d tail hr
          rw [bracketsEscaped_plain c d tail
              (by rintro ⟨-, hd⟩; rcases hd with hh | hh; exacts [hd1 hh, hd2 hh]) hcb,
            ← hr, ih]

/-- C9: for every ClosedItem, the emitted task line is
`- [ ] [escapedTitle](url)  `; the escaping turns each `[` into `\[` and
each `]` into `\]` (and nothing else), every bracket of the escaped title
is backslash-preceded (the link syntax stays valid), and the original
(computed) title is recoverable from the escaped text. -/
theorem C9_markdown_escape_roundtrip (item : ClosedItem) :
    markdownTaskLine item
      = "- [ ] [" ++ escapeMarkdownLinkText (jsOr item.title (jsOr item.url "Untitled"))
          ++ "](" ++ jsOr item.url "" ++ ")  "
    ∧ (escapeMarkdownLinkText (jsOr item.title (jsOr item.url "Untitled"))).toList
        = escapeSpec (jsOr item.title (jsOr item.url "Untitled")).toList
    ∧ bracketsEscaped
        (escapeMarkdownLinkText (jsOr item.title (jsOr item.url "Untitled"))).toList = true
    ∧ unescapeMarkdownLinkText
        (escapeMarkdownLinkText (jsOr item.title (jsOr item.url "Untitled"))).toList
      = (jsOr item.title (jsOr item.url "Untitled")).toList := by
  refine ⟨rfl, ?_, ?_, ?_⟩
  · show replaceCloseBracket (replaceOpenBracket
        (jsOr (jsOr item.title (jsOr item.url "Untitled")) "").toList)
      = escapeSpec (jsOr item.title (jsOr item.url "Untitled")).toList
    rw [jsOr_empty, escape_eq_escapeSpec]
  · show bracketsEscaped (replaceCloseBracket (replaceOpenBracket
        (jsOr (jsOr item.title (jsOr item.url "Untitled")) "").toList)) = true
    rw [jsOr_empty, escape_eq_escapeSpec]
    exact bracketsEscaped_escapeSpec _
  · show unescapeMarkdownLinkText (replaceCloseBracket (replaceOpenBracket
        (jsOr (jsOr item.title (jsOr item.url "Untitled")) "").toList))
      = (jsOr item.title (jsOr item.url "Untitled")).toList
    rw [jsOr_empty, escape_eq_escapeSpec]
    exact unescape_escapeSpec _

end TabVault
